import Mathlib

/-!
Verification development for the virtualized-table application.

The source is a React application consisting of four cooperating pieces:
a data generator (`generateData`), a paginated data-fetching state machine
(`useDataFetching` / `fetchMoreData`), a sort/filter pipeline
(`sortedData` / `filteredAndSortedData`) and a windowing engine
(`useVirtualizedList`).

Embedding conventions:
* JS numbers used for pixel geometry (scroll offsets, heights) are modelled
  as rationals `ℚ`; all values occurring in the program are far below the
  range where double-precision floats lose exactness.
* Counts and indices are `ℕ`/`ℤ`.
* JS strings are modelled as Lean `String`/`List Char`; `String.toLowerCase`
  is modelled on the ASCII fragment, which covers every string the program
  manipulates.
* `Array.prototype.sort` with a comparator is modelled as the stable
  `List.mergeSort` with `le a b := cmp a b ≤ 0`, matching the ECMAScript
  requirement that `sort` be stable and that a non-positive comparator
  result keep `a` before `b`.
* The asynchronous `fetchMoreData` is modelled by explicit state passing:
  `startLoad` is the guarded prefix up to the `await`, `completeLoad` the
  continuation after the simulated delay, and `fetchMoreData` a request
  that runs to completion.
-/

/-- The three status values, `i % 5 = 0 → Active`, else `i % 3 = 0 → Pending`,
else `Completed` (from `generateData`). -/
inductive Status : Type where
  | Active : Status
  | Pending : Status
  | Completed : Status
deriving DecidableEq, Repr

/-- The string stored in the `status` field of a record. -/
def statusString : Status → String
  | Status.Active => "Active"
  | Status.Pending => "Pending"
  | Status.Completed => "Completed"

/-- A table record, from the object literal in `generateData`. -/
structure Record : Type where
  id : ℕ
  name : String
  numericValue : ℕ
  status : Status
deriving DecidableEq, Repr

/-- The `TOTAL_ROWS` constant. -/
def TOTAL_ROWS : ℕ := 10000

/-- The `INITIAL_LOAD_COUNT` constant. -/
def INITIAL_LOAD_COUNT : ℕ := 500

/-- The `CHUNK_SIZE` constant. -/
def CHUNK_SIZE : ℕ := 500

/-- The `RowHeight` constant (pixels). -/
def RowHeight : ℚ := 60

/-- The `LIST_HEIGHT` constant (pixels). -/
def LIST_HEIGHT : ℚ := 700

/-- Decimal digit character, code point `48 + d` for a digit `d < 10`. -/
def digitChar (d : ℕ) : Char := Char.ofNat (48 + d)

/-- The decimal rendering of a natural number as a character list:
`Nat.digits` yields digits least-significant first, so the reversed list is
the usual most-significant-first decimal string.  Models `i.toString()` and
the template literal interpolation of `i` for the positive ids the program
generates. -/
def natChars (n : ℕ) : List Char := (Nat.digits 10 n).reverse.map digitChar

/-- The decimal rendering as a `String`. -/
def natString (n : ℕ) : String := String.mk (natChars n)

/-- The generator `generateData(count)`: records with `id = i`, `name = "Item Name " + i`,
a random `numericValue` (the random draws are modelled by the oracle `rand`,
giving the already floored value of `Math.floor(Math.random()*100000)`),
and the modulo-derived status, for `i = 1 .. count`. -/
def generateData (count : ℕ) (rand : ℕ → ℕ) : List Record :=
  (List.range count).map fun k =>
    { id := k + 1
      name := "Item Name " ++ natString (k + 1)
      numericValue := rand (k + 1)
      status :=
        if (k + 1) % 5 = 0 then Status.Active
        else if (k + 1) % 3 = 0 then Status.Pending
        else Status.Completed }

/-! ## Windowing engine (`useVirtualizedList`) -/

/-- Index normalization of `Array.prototype.slice`: a negative index counts
from the end clamped below by `0`; a non-negative index is clamped above by
the length. -/
def jsNormSliceIndex (len : ℕ) (i : ℤ) : ℕ :=
  if i < 0 then ((len : ℤ) + i).toNat else min i.toNat len

/-- Model of `Array.prototype.slice(start, stop)`: the elements from the normalized
`start` index up to but excluding the normalized `stop` index; total, never
throws. -/
def jsSlice {α : Type} (l : List α) (start stop : ℤ) : List α :=
  (l.take (jsNormSliceIndex l.length stop)).drop (jsNormSliceIndex l.length start)

/-- The values computed by `useVirtualizedList`: the materialized slice, the
window bounds, the full content height used to size the spacer, and the
numeric value of the `translateY` applied to the materialized block. -/
structure WindowResult (α : Type) : Type where
  visibleItems : List α
  startIndex : ℤ
  endIndex : ℤ
  totalHeight : ℚ
  renderOffset : ℚ
deriving Repr

/-- The windowing engine `useVirtualizedList(items, listHeight, rowHeight,
overscanCount)` at scroll position `scrollOffset`:
`totalHeight = items.length * rowHeight`,
`startIndex = max(0, floor(scrollOffset / rowHeight) - overscanCount)`,
`endIndex = min(items.length, ceil((scrollOffset + listHeight) / rowHeight)
+ overscanCount)`, `visibleItems = items.slice(startIndex, endIndex)`,
and the list translation `translateY(startIndex * rowHeight px)`. -/
def useVirtualizedList {α : Type} (items : List α) (listHeight rowHeight : ℚ)
    (overscanCount : ℕ) (scrollOffset : ℚ) : WindowResult α :=
  { visibleItems :=
      jsSlice items
        (max 0 (⌊scrollOffset / rowHeight⌋ - (overscanCount : ℤ)))
        (min (items.length : ℤ)
          (⌈(scrollOffset + listHeight) / rowHeight⌉ + (overscanCount : ℤ)))
    startIndex := max 0 (⌊scrollOffset / rowHeight⌋ - (overscanCount : ℤ))
    endIndex :=
      min (items.length : ℤ)
        (⌈(scrollOffset + listHeight) / rowHeight⌉ + (overscanCount : ℤ))
    totalHeight := (items.length : ℚ) * rowHeight
    renderOffset :=
      ((max 0 (⌊scrollOffset / rowHeight⌋ - (overscanCount : ℤ)) : ℤ) : ℚ)
        * rowHeight }

/-! ## Sort pipeline (`sortedData`) -/

/-- Sort direction, the `sortDirection` state values. -/
inductive SortDir : Type where
  | asc : SortDir
  | desc : SortDir
deriving DecidableEq, Repr

/-- Sortable columns, the values passed to `handleSort`. -/
inductive SortKey : Type where
  | id : SortKey
  | name : SortKey
  | numericValue : SortKey
deriving DecidableEq, Repr

/-- The comparator body from `sortedData`, generic over the compared value
type: `aValue < bValue` yields `-1` ascending / `1` descending,
`aValue > bValue` yields `1` ascending / `-1` descending, otherwise `0`. -/
def jsCompareVals {β : Type} [LinearOrder β] (dir : SortDir) (x y : β) : ℤ :=
  if x < y then (match dir with | SortDir.asc => -1 | SortDir.desc => 1)
  else if y < x then (match dir with | SortDir.asc => 1 | SortDir.desc => -1)
  else 0

/-- Whether `a` may precede `b` under the comparator: comparator result `≤ 0`. -/
def jsLeOfCmp {β : Type} [LinearOrder β] (dir : SortDir) (x y : β) : Bool :=
  decide (jsCompareVals dir x y ≤ 0)

/-- The record comparator of `sortedData`: the value under the sort key is
selected (`a[sortBy]`; ids and numeric values compare numerically, names
compare as strings) and compared by the shared comparator body. -/
def recordCmp (key : SortKey) (dir : SortDir) (a b : Record) : ℤ :=
  match key with
  | SortKey.id => jsCompareVals dir a.id b.id
  | SortKey.name => jsCompareVals dir a.name b.name
  | SortKey.numericValue => jsCompareVals dir a.numericValue b.numericValue

/-- Boolean form of "`a` may precede `b`" for the record comparator. -/
def recordLe (key : SortKey) (dir : SortDir) (a b : Record) : Bool :=
  decide (recordCmp key dir a b ≤ 0)

/-- The memoized `sortedData`: empty input short-circuits to `[]`; otherwise a copy of the
data is sorted stably with the comparator (ECMAScript `Array.prototype.sort`
is stable; modelled by `List.mergeSort`). -/
def sortedData (data : List Record) (key : SortKey) (dir : SortDir) : List Record :=
  if data.isEmpty then [] else data.mergeSort (recordLe key dir)

/-! ## Filter pipeline (`filteredAndSortedData`) -/

/-- ASCII lower-casing of one character, the fragment of
`String.prototype.toLowerCase` relevant to the program's strings. -/
def lowerChar (c : Char) : Char :=
  if 'A' ≤ c ∧ c ≤ 'Z' then Char.ofNat (c.toNat + 32) else c

/-- Lower-casing of a character list. -/
def lowerChars (l : List Char) : List Char := l.map lowerChar

/-- Whether `pat` occurs at the very beginning of `s`. -/
def startsWithSeq : List Char → List Char → Bool
  | _, [] => true
  | [], _ :: _ => false
  | c :: s, d :: t => c == d && startsWithSeq s t

/-- Model of `String.prototype.includes`: whether `pat` occurs contiguously anywhere
in `s`. -/
def containsSeq : List Char → List Char → Bool
  | [], pat => startsWithSeq [] pat
  | c :: s, pat => startsWithSeq (c :: s) pat || containsSeq s pat

/-- The filter of `filteredAndSortedData`: an empty query passes the input
through; otherwise the query is lower-cased and a record is kept when the
query occurs in the decimal rendering of its id, its lower-cased name, or
its lower-cased status string. -/
def jsFilter (query : String) (l : List Record) : List Record :=
  if query = "" then l
  else
    l.filter fun item =>
      containsSeq (natChars item.id) (lowerChars query.data)
      || containsSeq (lowerChars item.name.data) (lowerChars query.data)
      || containsSeq (lowerChars (statusString item.status).data) (lowerChars query.data)

/-- The composed pipeline: sort first, then filter. -/
def filteredAndSortedData (data : List Record) (key : SortKey) (dir : SortDir)
    (query : String) : List Record :=
  jsFilter query (sortedData data key dir)

/-! ## Paginated data source (`useDataFetching`) -/

/-- The state of `useDataFetching`: the loaded prefix (`data`), the
`isLoading` flag, the `hasMore` flag, and the `loadedCount` ref. -/
structure FetchState : Type where
  data : List Record
  isLoading : Bool
  hasMore : Bool
  loadedCount : ℕ
deriving DecidableEq, Repr

/-- The initial state of `useDataFetching`: the first `INITIAL_LOAD_COUNT`
records of the full dataset, not loading, `hasMore` iff more rows exist. -/
def initState (full : List Record) : FetchState :=
  { data := full.take INITIAL_LOAD_COUNT
    isLoading := false
    hasMore := decide (TOTAL_ROWS > INITIAL_LOAD_COUNT)
    loadedCount := INITIAL_LOAD_COUNT }

/-- The prefix of `fetchMoreData` up to the `await`: return unchanged when
already loading or exhausted, otherwise set `isLoading`. -/
def startLoad (s : FetchState) : FetchState :=
  if s.isLoading || !s.hasMore then s else { s with isLoading := true }

/-- The continuation of `fetchMoreData` after the simulated delay: slice the
next chunk `full.slice(loadedCount, loadedCount + CHUNK_SIZE)`; if non-empty,
append it, advance `loadedCount` and recompute `hasMore`; otherwise clear
`hasMore`; finally clear `isLoading`. -/
def completeLoad (full : List Record) (s : FetchState) : FetchState :=
  if 0 < ((full.drop s.loadedCount).take CHUNK_SIZE).length then
    { data := s.data ++ (full.drop s.loadedCount).take CHUNK_SIZE
      isLoading := false
      hasMore :=
        decide (s.loadedCount + ((full.drop s.loadedCount).take CHUNK_SIZE).length
          < TOTAL_ROWS)
      loadedCount := s.loadedCount + ((full.drop s.loadedCount).take CHUNK_SIZE).length }
  else
    { s with hasMore := false, isLoading := false }

/-- A `fetchMoreData` request that runs to completion: the guard, then the
post-delay continuation applied to the state with `isLoading` set. -/
def fetchMoreData (full : List Record) (s : FetchState) : FetchState :=
  if s.isLoading || !s.hasMore then s
  else completeLoad full { s with isLoading := true }

/-! ## Auxiliary definitions for the statements and their instances -/

/-- Pairwise distinctness of the values under a sort key. -/
def keyDistinct (k : SortKey) (l : List Record) : Prop :=
  match k with
  | SortKey.id => l.Pairwise (fun a b => a.id ≠ b.id)
  | SortKey.name => l.Pairwise (fun a b => a.name ≠ b.name)
  | SortKey.numericValue => l.Pairwise (fun a b => a.numericValue ≠ b.numericValue)

/-- A concrete record used to instantiate theorems. -/
def wrec1 : Record := ⟨1, "Item Name 1", 7, Status.Completed⟩

/-- A second concrete record with a different id. -/
def wrec2 : Record := ⟨2, "Item Name 2", 3, Status.Pending⟩

/-- A concrete full dataset of the size the program generates. -/
def fullTestData : List Record := List.replicate TOTAL_ROWS wrec1

/-! ## Helper lemmas about the comparator -/

theorem jsLeOfCmp_asc_iff {β : Type} [LinearOrder β] (x y : β) :
    jsLeOfCmp SortDir.asc x y = true ↔ x ≤ y := by
  unfold jsLeOfCmp jsCompareVals
  rcases lt_trichotomy x y with h | h | h
  · simp [h, le_of_lt h]
  · simp [h, le_of_eq h, lt_irrefl]
  · simp [h, not_lt_of_gt h, not_le_of_gt h]

theorem jsLeOfCmp_desc_iff {β : Type} [LinearOrder β] (x y : β) :
    jsLeOfCmp SortDir.desc x y = true ↔ y ≤ x := by
  unfold jsLeOfCmp jsCompareVals
  rcases lt_trichotomy x y with h | h | h
  · simp [h, not_le_of_gt h]
  · simp [h, le_of_eq h.symm, lt_irrefl]
  · simp [h, not_lt_of_gt h, le_of_lt h]

theorem jsLeOfCmp_trans {β : Type} [LinearOrder β] (dir : SortDir) :
    ∀ x y z : β, jsLeOfCmp dir x y = true → jsLeOfCmp dir y z = true →
      jsLeOfCmp dir x z = true := by
  intro x y z hxy hyz
  cases dir
  · rw [jsLeOfCmp_asc_iff] at *
    exact le_trans hxy hyz
  · rw [jsLeOfCmp_desc_iff] at *
    exact le_trans hyz hxy

theorem jsLeOfCmp_total {β : Type} [LinearOrder β] (dir : SortDir) :
    ∀ x y : β, (jsLeOfCmp dir x y || jsLeOfCmp dir y x) = true := by
  intro x y
  cases dir
  · rw [Bool.or_eq_true, jsLeOfCmp_asc_iff, jsLeOfCmp_asc_iff]
    exact le_total x y
  · rw [Bool.or_eq_true, jsLeOfCmp_desc_iff, jsLeOfCmp_desc_iff]
    exact le_total y x

theorem recordLe_trans (k : SortKey) (d : SortDir) :
    ∀ a b c : Record, recordLe k d a b = true → recordLe k d b c = true →
      recordLe k d a c = true := by
  cases k <;> intro a b c <;> exact jsLeOfCmp_trans d _ _ _

theorem recordLe_total (k : SortKey) (d : SortDir) :
    ∀ a b : Record, (recordLe k d a b || recordLe k d b a) = true := by
  cases k <;> intro a b <;> exact jsLeOfCmp_total d _ _

theorem sortedData_eq_mergeSort (l : List Record) (k : SortKey) (d : SortDir) :
    sortedData l k d = l.mergeSort (recordLe k d) := by
  unfold sortedData
  split
  next hc =>
    rw [List.isEmpty_iff.mp hc]
    simp
  next => rfl

/-- Sorting descending under an injectively keyed comparator reverses the
ascending sort, generically in the key projection. -/
theorem mergeSort_desc_eq_reverse_asc {α β : Type} [LinearOrder β] (f : α → β)
    (l : List α) (hd : l.Pairwise (fun a b => f a ≠ f b)) :
    l.mergeSort (fun a b => jsLeOfCmp SortDir.desc (f a) (f b))
      = (l.mergeSort (fun a b => jsLeOfCmp SortDir.asc (f a) (f b))).reverse := by
  have permA := List.mergeSort_perm l (fun a b => jsLeOfCmp SortDir.asc (f a) (f b))
  have permD := List.mergeSort_perm l (fun a b => jsLeOfCmp SortDir.desc (f a) (f b))
  have hdsym : ∀ {x y : α}, f x ≠ f y → f y ≠ f x := fun h => h.symm
  have hdA : (l.mergeSort (fun a b => jsLeOfCmp SortDir.asc (f a) (f b))).Pairwise
      (fun a b => f a ≠ f b) := (permA.pairwise_iff hdsym).mpr hd
  have hdD : (l.mergeSort (fun a b => jsLeOfCmp SortDir.desc (f a) (f b))).Pairwise
      (fun a b => f a ≠ f b) := (permD.pairwise_iff hdsym).mpr hd
  have hsA : (l.mergeSort (fun a b => jsLeOfCmp SortDir.asc (f a) (f b))).Pairwise
      (fun a b => f a ≤ f b) := by
    have := @List.sorted_mergeSort α (fun a b => jsLeOfCmp SortDir.asc (f a) (f b))
      (fun a b c => jsLeOfCmp_trans SortDir.asc (f a) (f b) (f c))
      (fun a b => jsLeOfCmp_total SortDir.asc (f a) (f b)) l
    exact this.imp (fun h => (jsLeOfCmp_asc_iff _ _).mp h)
  have hsD : (l.mergeSort (fun a b => jsLeOfCmp SortDir.desc (f a) (f b))).Pairwise
      (fun a b => f b ≤ f a) := by
    have := @List.sorted_mergeSort α (fun a b => jsLeOfCmp SortDir.desc (f a) (f b))
      (fun a b c => jsLeOfCmp_trans SortDir.desc (f a) (f b) (f c))
      (fun a b => jsLeOfCmp_total SortDir.desc (f a) (f b)) l
    exact this.imp (fun h => (jsLeOfCmp_desc_iff _ _).mp h)
  have hsD' : (l.mergeSort (fun a b => jsLeOfCmp SortDir.desc (f a) (f b))).Pairwise
      (fun a b => f b < f a) :=
    (hsD.and hdD).imp (fun h => lt_of_le_of_ne h.1 (Ne.symm h.2))
  have hsA' : (l.mergeSort (fun a b => jsLeOfCmp SortDir.asc (f a) (f b))).Pairwise
      (fun a b => f a < f b) :=
    (hsA.and hdA).imp (fun h => lt_of_le_of_ne h.1 h.2)
  have hsRA : (l.mergeSort (fun a b => jsLeOfCmp SortDir.asc (f a) (f b))).reverse.Pairwise
      (fun a b => f b < f a) := List.pairwise_reverse.mpr hsA'
  haveI : IsAntisymm α (fun a b => f b < f a) :=
    ⟨fun a b h1 h2 => absurd h1 (not_lt_of_ge h2.le)⟩
  exact List.eq_of_perm_of_sorted
    (permD.trans ((List.reverse_perm _).trans permA).symm) hsD' hsRA

/-! ## Helper lemmas about the substring check and generated strings -/

theorem startsWithSeq_subset {s pat : List Char} (h : startsWithSeq s pat = true) :
    ∀ c ∈ pat, c ∈ s := by
  induction pat generalizing s with
  | nil => intro c hc; cases hc
  | cons d t ih =>
    cases s with
    | nil => cases h
    | cons a s' =>
      unfold startsWithSeq at h
      rw [Bool.and_eq_true, beq_iff_eq] at h
      intro c hc
      rcases List.mem_cons.mp hc with hc | hc
      · subst hc; rw [h.1]; exact List.mem_cons_self _ _
      · exact List.mem_cons_of_mem _ (ih h.2 c hc)

theorem containsSeq_subset {s pat : List Char} (h : containsSeq s pat = true) :
    ∀ c ∈ pat, c ∈ s := by
  induction s with
  | nil => exact startsWithSeq_subset h
  | cons a s' ih =>
    unfold containsSeq at h
    rw [Bool.or_eq_true] at h
    rcases h with h | h
    · exact startsWithSeq_subset h
    · intro c hc
      exact List.mem_cons_of_mem _ (ih h c hc)

theorem containsSeq_eq_false_of_not_mem {s pat : List Char} {c : Char}
    (hc : c ∈ pat) (hns : c ∉ s) : containsSeq s pat = false := by
  rcases hb : containsSeq s pat with _ | _
  · rfl
  · exact absurd (containsSeq_subset hb c hc) hns

theorem natChars_mem {n : ℕ} {c : Char} (h : c ∈ natChars n) :
    ∃ d, d < 10 ∧ c = digitChar d := by
  unfold natChars at h
  rcases List.mem_map.mp h with ⟨d, hd, rfl⟩
  exact ⟨d, Nat.digits_lt_base (by norm_num) (List.mem_reverse.mp hd), rfl⟩

theorem a_not_mem_natChars (n : ℕ) : 'a' ∉ natChars n := by
  intro h
  rcases natChars_mem h with ⟨d, hd, he⟩
  interval_cases d <;> exact absurd he.symm (by decide)

theorem v_not_mem_natChars (n : ℕ) : 'v' ∉ natChars n := by
  intro h
  rcases natChars_mem h with ⟨d, hd, he⟩
  interval_cases d <;> exact absurd he.symm (by decide)

theorem lowerChars_natChars (n : ℕ) : lowerChars (natChars n) = natChars n := by
  unfold lowerChars
  have : List.map lowerChar (natChars n) = List.map id (natChars n) := by
    apply List.map_congr_left
    intro c hc
    rcases natChars_mem hc with ⟨d, hd, rfl⟩
    show lowerChar (digitChar d) = digitChar d
    interval_cases d <;> decide
  rw [this, List.map_id]

/-! ## Helper lemmas about the data-fetching state machine -/

/-- Unfolding of a completed request from a ready state with a non-empty
chunk available. -/
theorem fetchMoreData_ready (full : List Record) (s : FetchState)
    (hl : s.isLoading = false) (hm : s.hasMore = true)
    (hpos : 0 < ((full.drop s.loadedCount).take CHUNK_SIZE).length) :
    fetchMoreData full s =
      { data := s.data ++ (full.drop s.loadedCount).take CHUNK_SIZE
        isLoading := false
        hasMore :=
          decide (s.loadedCount + ((full.drop s.loadedCount).take CHUNK_SIZE).length
            < TOTAL_ROWS)
        loadedCount :=
          s.loadedCount + ((full.drop s.loadedCount).take CHUNK_SIZE).length } := by
  unfold fetchMoreData completeLoad
  rw [hl, hm]
  simp only [Bool.not_true, Bool.or_false, Bool.false_eq_true, if_false, if_pos hpos]

/-- A request from a loading or exhausted state is the identity. -/
theorem fetchMoreData_noop (full : List Record) (s : FetchState)
    (h : s.isLoading = true ∨ s.hasMore = false) :
    fetchMoreData full s = s := by
  unfold fetchMoreData
  rcases h with h | h <;> rw [h] <;> simp

/-- The state after `k` completed load requests: `loadedCount` equals
`min (INITIAL_LOAD_COUNT + CHUNK_SIZE * k) TOTAL_ROWS`, `hasMore` tracks
`loadedCount < TOTAL_ROWS`, `data` is the corresponding prefix of the full
dataset, and the machine is not loading. -/
theorem fetch_iterate (full : List Record) (h : full.length = TOTAL_ROWS) (k : ℕ) :
    ((fetchMoreData full)^[k] (initState full)).loadedCount
        = min (INITIAL_LOAD_COUNT + CHUNK_SIZE * k) TOTAL_ROWS ∧
    ((fetchMoreData full)^[k] (initState full)).hasMore
        = decide (((fetchMoreData full)^[k] (initState full)).loadedCount < TOTAL_ROWS) ∧
    ((fetchMoreData full)^[k] (initState full)).data
        = full.take (((fetchMoreData full)^[k] (initState full)).loadedCount) ∧
    ((fetchMoreData full)^[k] (initState full)).isLoading = false := by
  induction k with
  | zero =>
    refine ⟨?_, ?_, ?_, rfl⟩
    · simp [initState, INITIAL_LOAD_COUNT, TOTAL_ROWS, CHUNK_SIZE]
    · simp [initState, INITIAL_LOAD_COUNT, TOTAL_ROWS]
    · simp [initState]
  | succ n ih =>
    obtain ⟨hlc, hhm, hdata, hload⟩ := ih
    rw [Function.iterate_succ_apply']
    set s := (fetchMoreData full)^[n] (initState full) with hs
    by_cases hmore : s.loadedCount < TOTAL_ROWS
    · have hhm' : s.hasMore = true := by rw [hhm]; simp [hmore]
      have hchunklen : ((full.drop s.loadedCount).take CHUNK_SIZE).length
          = min CHUNK_SIZE (TOTAL_ROWS - s.loadedCount) := by
        simp [List.length_take, List.length_drop, h]
      have hpos : 0 < ((full.drop s.loadedCount).take CHUNK_SIZE).length := by
        rw [hchunklen]
        unfold CHUNK_SIZE
        omega
      rw [fetchMoreData_ready full s hload hhm' hpos]
      refine ⟨?_, ?_, ?_, rfl⟩
      · show s.loadedCount + ((full.drop s.loadedCount).take CHUNK_SIZE).length = _
        rw [hchunklen, hlc]
        unfold TOTAL_ROWS INITIAL_LOAD_COUNT CHUNK_SIZE
        omega
      · rfl
      · show s.data ++ (full.drop s.loadedCount).take CHUNK_SIZE
            = full.take (s.loadedCount + ((full.drop s.loadedCount).take CHUNK_SIZE).length)
        rw [hdata, ← List.take_add, List.take_eq_take, hchunklen, h]
        unfold TOTAL_ROWS CHUNK_SIZE
        omega
    · have hhm' : s.hasMore = false := by rw [hhm]; simp [hmore]
      rw [fetchMoreData_noop full s (Or.inr hhm')]
      refine ⟨?_, hhm, hdata, hload⟩
      rw [hlc] at hmore ⊢
      unfold TOTAL_ROWS INITIAL_LOAD_COUNT CHUNK_SIZE at *
      omega

/-! ## Claim theorems -/

/-- C1 (counterexample): with `itemCount = 0`, `rowHeight = 60`,
`viewportHeight = 700`, `overscan = 5` and `scrollOffset = 600` the claimed
invariant `0 ≤ startIndex ≤ endIndex ≤ itemCount` fails: the engine computes
`startIndex = 5` but `endIndex = 0`, because `startIndex` is never clamped
against `itemCount`. -/
theorem claim1_counterexample :
    ¬ (0 ≤ (useVirtualizedList ([] : List Record) 700 60 5 600).startIndex ∧
       (useVirtualizedList ([] : List Record) 700 60 5 600).startIndex
          ≤ (useVirtualizedList ([] : List Record) 700 60 5 600).endIndex ∧
       (useVirtualizedList ([] : List Record) 700 60 5 600).endIndex
          ≤ ((List.length ([] : List Record)) : ℤ)) := by
  intro hinv
  have h1 : (useVirtualizedList ([] : List Record) 700 60 5 600).startIndex = 5 := by
    show max 0 (⌊(600 : ℚ) / 60⌋ - (5 : ℤ)) = 5
    norm_num
  have h2 : (useVirtualizedList ([] : List Record) 700 60 5 600).endIndex ≤ 0 := by
    show min ((List.length ([] : List Record)) : ℤ) _ ≤ 0
    simp
  have := hinv.2.1
  omega

/-- C1 (amended): for every `itemCount ≥ 0`, `rowHeight > 0`,
`viewportHeight > 0`, `overscan ≥ 0` and every scroll offset with
`0 ≤ scrollOffset ≤ itemCount * rowHeight` (the scroll offset within the
content bounds), the window descriptor satisfies
`0 ≤ startIndex ≤ endIndex ≤ itemCount`. -/
theorem claim1_window_invariant_clamped {α : Type} (items : List α)
    (L r : ℚ) (ov : ℕ) (s : ℚ) (hr : 0 < r) (hL : 0 < L) (hs : 0 ≤ s)
    (hbound : s ≤ (items.length : ℚ) * r) :
    0 ≤ (useVirtualizedList items L r ov s).startIndex ∧
    (useVirtualizedList items L r ov s).startIndex
      ≤ (useVirtualizedList items L r ov s).endIndex ∧
    (useVirtualizedList items L r ov s).endIndex ≤ (items.length : ℤ) := by
  refine ⟨le_max_left _ _, ?_, min_le_left _ _⟩
  apply max_le
  · apply le_min
    · exact_mod_cast Int.ofNat_nonneg items.length
    · have h0 : (0 : ℚ) ≤ (s + L) / r := div_nonneg (by linarith) hr.le
      have := Int.ceil_nonneg h0
      omega
  · apply le_min
    · have hdiv : s / r ≤ (items.length : ℚ) := by
        rw [div_le_iff₀ hr]
        exact hbound
      have hfl : ⌊s / r⌋ ≤ (items.length : ℤ) := by
        have := Int.floor_le_floor hdiv
        rwa [Int.floor_natCast] at this
      omega
    · have h1 : ⌊s / r⌋ ≤ ⌈s / r⌉ := Int.floor_le_ceil _
      have h2 : ⌈s / r⌉ ≤ ⌈(s + L) / r⌉ := by
        apply Int.ceil_le_ceil
        exact (div_le_div_iff_of_pos_right hr).mpr (by linarith)
      omega

/-- C1 (witness): the amended invariant at `items` of length `3`,
`viewportHeight = 700`, `rowHeight = 60`, `overscan = 5`,
`scrollOffset = 120 ≤ 3 * 60`. -/
theorem claim1_witness :
    ((0 : ℚ) < 60 ∧ (0 : ℚ) < 700 ∧ (0 : ℚ) ≤ 120 ∧
      (120 : ℚ) ≤ ((List.range 3).length : ℚ) * 60) ∧
    (0 ≤ (useVirtualizedList (List.range 3) 700 60 5 120).startIndex ∧
     (useVirtualizedList (List.range 3) 700 60 5 120).startIndex
       ≤ (useVirtualizedList (List.range 3) 700 60 5 120).endIndex ∧
     (useVirtualizedList (List.range 3) 700 60 5 120).endIndex
       ≤ ((List.range 3).length : ℤ)) :=
  ⟨⟨by norm_num, by norm_num, by norm_num, by norm_num⟩,
    claim1_window_invariant_clamped (List.range 3) 700 60 5 120
      (by norm_num) (by norm_num) (by norm_num) (by norm_num)⟩

/-- C2: for every `itemCount ≥ 0`, `rowHeight > 0`, `viewportHeight > 0`,
`overscan ≥ 0` and `scrollOffset ≥ 0`, the windowing engine returns exactly
`startIndex = max(0, floor(scrollOffset / rowHeight) - overscan)`,
`endIndex = min(itemCount, ceil((scrollOffset + viewportHeight) / rowHeight)
+ overscan)`, `totalContentHeight = itemCount * rowHeight` and
`renderOffset = startIndex * rowHeight`. -/
theorem claim2_window_formulas {α : Type} (items : List α) (L r : ℚ)
    (ov : ℕ) (s : ℚ) (hr : 0 < r) (hL : 0 < L) (hs : 0 ≤ s) :
    (useVirtualizedList items L r ov s).startIndex
        = max 0 (⌊s / r⌋ - (ov : ℤ)) ∧
    (useVirtualizedList items L r ov s).endIndex
        = min (items.length : ℤ) (⌈(s + L) / r⌉ + (ov : ℤ)) ∧
    (useVirtualizedList items L r ov s).totalHeight = (items.length : ℚ) * r ∧
    (useVirtualizedList items L r ov s).renderOffset
        = ((useVirtualizedList items L r ov s).startIndex : ℚ) * r :=
  ⟨rfl, rfl, rfl, rfl⟩

/-- C2 (witness): the exact formulas at `items` of length `3`,
`viewportHeight = 700`, `rowHeight = 60`, `overscan = 5`,
`scrollOffset = 120`. -/
theorem claim2_witness :
    ((0 : ℚ) < 60 ∧ (0 : ℚ) < 700 ∧ (0 : ℚ) ≤ 120) ∧
    ((useVirtualizedList (List.range 3) 700 60 5 120).startIndex
        = max 0 (⌊(120 : ℚ) / 60⌋ - (5 : ℤ)) ∧
     (useVirtualizedList (List.range 3) 700 60 5 120).endIndex
        = min (((List.range 3).length : ℤ))
            (⌈((120 : ℚ) + 700) / 60⌉ + (5 : ℤ)) ∧
     (useVirtualizedList (List.range 3) 700 60 5 120).totalHeight
        = ((List.range 3).length : ℚ) * 60 ∧
     (useVirtualizedList (List.range 3) 700 60 5 120).renderOffset
        = ((useVirtualizedList (List.range 3) 700 60 5 120).startIndex : ℚ) * 60) :=
  ⟨⟨by norm_num, by norm_num, by norm_num⟩,
    claim2_window_formulas (List.range 3) 700 60 5 120
      (by norm_num) (by norm_num) (by norm_num)⟩

/-- C3: for every `itemCount ≥ 0`, `rowHeight > 0`, `viewportHeight > 0`,
`overscan ≥ 0` and `scrollOffset ≥ 0`, the window size
`endIndex - startIndex` is at most
`ceil(viewportHeight / rowHeight) + 2 * overscan + 1`, a bound independent
of `itemCount`. -/
theorem claim3_window_size_bound {α : Type} (items : List α) (L r : ℚ)
    (ov : ℕ) (s : ℚ) (hr : 0 < r) (hL : 0 < L) (hs : 0 ≤ s) :
    (useVirtualizedList items L r ov s).endIndex
        - (useVirtualizedList items L r ov s).startIndex
      ≤ ⌈L / r⌉ + 2 * (ov : ℤ) + 1 := by
  have h1 : (useVirtualizedList items L r ov s).endIndex
      ≤ ⌈(s + L) / r⌉ + (ov : ℤ) := min_le_right _ _
  have h2 : ⌊s / r⌋ - (ov : ℤ) ≤ (useVirtualizedList items L r ov s).startIndex :=
    le_max_right _ _
  have h3 : ⌈(s + L) / r⌉ ≤ ⌊s / r⌋ + ⌈L / r⌉ + 1 := by
    have hadd : (s + L) / r = s / r + L / r := add_div s L r
    calc ⌈(s + L) / r⌉ = ⌈s / r + L / r⌉ := by rw [hadd]
      _ ≤ ⌈s / r⌉ + ⌈L / r⌉ := Int.ceil_add_le _ _
      _ ≤ ⌊s / r⌋ + 1 + ⌈L / r⌉ := by
          have := Int.ceil_le_floor_add_one (s / r)
          omega
      _ = ⌊s / r⌋ + ⌈L / r⌉ + 1 := by ring
  omega

/-- C3 (witness): the bound at `items` of length `3`, `viewportHeight = 700`,
`rowHeight = 60`, `overscan = 5`, `scrollOffset = 120`. -/
theorem claim3_witness :
    ((0 : ℚ) < 60 ∧ (0 : ℚ) < 700 ∧ (0 : ℚ) ≤ 120) ∧
    (useVirtualizedList (List.range 3) 700 60 5 120).endIndex
        - (useVirtualizedList (List.range 3) 700 60 5 120).startIndex
      ≤ ⌈(700 : ℚ) / 60⌉ + 2 * (5 : ℤ) + 1 :=
  ⟨⟨by norm_num, by norm_num, by norm_num⟩,
    claim3_window_size_bound (List.range 3) 700 60 5 120
      (by norm_num) (by norm_num) (by norm_num)⟩

/-- C9: when the view sequence is empty (`itemCount = 0`), for every
`rowHeight > 0`, `viewportHeight > 0`, `overscan ≥ 0` and every
`scrollOffset ≥ 0`, the engine produces an empty `visibleItems` slice and
`totalContentHeight = 0`; the index computations and the slice are total by
construction, so no operation throws. -/
theorem claim9_empty_dataset (L r : ℚ) (ov : ℕ) (s : ℚ)
    (hr : 0 < r) (hL : 0 < L) (hs : 0 ≤ s) :
    (useVirtualizedList ([] : List Record) L r ov s).visibleItems = [] ∧
    (useVirtualizedList ([] : List Record) L r ov s).totalHeight = 0 := by
  constructor
  · show jsSlice ([] : List Record) _ _ = []
    simp [jsSlice]
  · show ((List.length ([] : List Record)) : ℚ) * r = 0
    simp

/-- C9 (witness): the empty dataset at `viewportHeight = 700`,
`rowHeight = 60`, `overscan = 5`, `scrollOffset = 0`. -/
theorem claim9_witness :
    ((0 : ℚ) < 60 ∧ (0 : ℚ) < 700 ∧ (0 : ℚ) ≤ 0) ∧
    ((useVirtualizedList ([] : List Record) 700 60 5 0).visibleItems = [] ∧
     (useVirtualizedList ([] : List Record) 700 60 5 0).totalHeight = 0) :=
  ⟨⟨by norm_num, by norm_num, le_refl 0⟩,
    claim9_empty_dataset 700 60 5 0 (by norm_num) (by norm_num) (le_refl 0)⟩

/-- C4: for every record sequence, sort key and direction, applying the sort
operation twice with the same key and direction yields the same sequence as
applying it once. -/
theorem claim4_sort_idempotent (l : List Record) (k : SortKey) (d : SortDir) :
    sortedData (sortedData l k d) k d = sortedData l k d := by
  rw [sortedData_eq_mergeSort, sortedData_eq_mergeSort]
  exact List.mergeSort_of_sorted
    (List.sorted_mergeSort (recordLe_trans k d) (recordLe_total k d) l)

/-- C5: for every record sequence whose values under a given sort key are
pairwise distinct, sorting descending by that key yields exactly the reverse
of the sequence obtained by sorting ascending by the same key. -/
theorem claim5_sort_desc_reverse_asc (l : List Record) (k : SortKey)
    (hd : keyDistinct k l) :
    sortedData l k SortDir.desc = (sortedData l k SortDir.asc).reverse := by
  rw [sortedData_eq_mergeSort, sortedData_eq_mergeSort]
  cases k
  · exact mergeSort_desc_eq_reverse_asc (fun r : Record => r.id) l hd
  · exact mergeSort_desc_eq_reverse_asc (fun r : Record => r.name) l hd
  · exact mergeSort_desc_eq_reverse_asc (fun r : Record => r.numericValue) l hd

/-- C5 (witness): on two records with distinct ids, sorting descending by id
reverses the ascending sort. -/
theorem claim5_witness :
    keyDistinct SortKey.id [wrec1, wrec2] ∧
    sortedData [wrec1, wrec2] SortKey.id SortDir.desc
      = (sortedData [wrec1, wrec2] SortKey.id SortDir.asc).reverse :=
  ⟨by unfold keyDistinct wrec1 wrec2; decide,
    claim5_sort_desc_reverse_asc [wrec1, wrec2] SortKey.id
      (by unfold keyDistinct wrec1 wrec2; decide)⟩

/-- C6: for every record sequence produced by the data generator (for any
count and any draws of the random oracle), filtering with the query
`"active"` returns exactly the subsequence of records whose status is
`Active`: the id digits never contain a letter, the lower-cased names
`"item name <digits>"` never contain the substring `"active"`, and of the
three lower-cased status strings only `"active"` does. -/
theorem claim6_filter_active (n : ℕ) (rand : ℕ → ℕ) :
    jsFilter "active" (generateData n rand)
      = (generateData n rand).filter (fun r => decide (r.status = Status.Active)) := by
  unfold jsFilter
  rw [if_neg (by decide)]
  apply List.filter_congr
  intro r hr
  rcases List.mem_map.mp hr with ⟨k, hk, rfl⟩
  have hname : lowerChars ("Item Name " ++ natString (k + 1)).data
      = "item name ".data ++ natChars (k + 1) := by
    rw [String.data_append]
    show lowerChars ("Item Name ".data ++ natChars (k + 1)) = _
    unfold lowerChars
    rw [List.map_append]
    show lowerChars "Item Name ".data ++ lowerChars (natChars (k + 1)) = _
    rw [lowerChars_natChars]
    rfl
  have hid : containsSeq (natChars (k + 1)) (lowerChars "active".data) = false := by
    apply containsSeq_eq_false_of_not_mem
      (show 'a' ∈ lowerChars "active".data by decide)
    exact a_not_mem_natChars _
  have hnm : containsSeq (lowerChars ("Item Name " ++ natString (k + 1)).data)
      (lowerChars "active".data) = false := by
    rw [hname]
    apply containsSeq_eq_false_of_not_mem
      (show 'v' ∈ lowerChars "active".data by decide)
    intro hmem
    rcases List.mem_append.mp hmem with hmem | hmem
    · exact absurd hmem (by decide)
    · exact v_not_mem_natChars _ hmem
  show (containsSeq (natChars (k + 1)) (lowerChars "active".data)
      || containsSeq (lowerChars ("Item Name " ++ natString (k + 1)).data)
          (lowerChars "active".data)
      || containsSeq
          (lowerChars (statusString (if (k + 1) % 5 = 0 then Status.Active
            else if (k + 1) % 3 = 0 then Status.Pending else Status.Completed)).data)
          (lowerChars "active".data))
    = decide ((if (k + 1) % 5 = 0 then Status.Active
        else if (k + 1) % 3 = 0 then Status.Pending else Status.Completed)
          = Status.Active)
  rw [hid, hnm]
  by_cases h5 : (k + 1) % 5 = 0
  · rw [if_pos h5]
    decide
  · rw [if_neg h5]
    by_cases h3 : (k + 1) % 3 = 0
    · rw [if_pos h3]
      decide
    · rw [if_neg h3]
      decide

/-- Each completed request advances `loadedCount` and the loaded prefix
length by exactly `min CHUNK_SIZE (TOTAL_ROWS - loadedCount)`. -/
theorem fetch_chunk_equation (full : List Record)
    (h : full.length = TOTAL_ROWS) (k : ℕ) :
    ((fetchMoreData full)^[k + 1] (initState full)).loadedCount
        = ((fetchMoreData full)^[k] (initState full)).loadedCount
          + min CHUNK_SIZE
              (TOTAL_ROWS - ((fetchMoreData full)^[k] (initState full)).loadedCount) ∧
    ((fetchMoreData full)^[k + 1] (initState full)).data.length
        = ((fetchMoreData full)^[k] (initState full)).data.length
          + min CHUNK_SIZE
              (TOTAL_ROWS - ((fetchMoreData full)^[k] (initState full)).loadedCount) := by
  obtain ⟨hak, hbk, hck, -⟩ := fetch_iterate full h k
  obtain ⟨hak1, -, hck1, -⟩ := fetch_iterate full h (k + 1)
  have hlenk : ((fetchMoreData full)^[k] (initState full)).data.length
      = ((fetchMoreData full)^[k] (initState full)).loadedCount := by
    rw [hck, List.length_take, h, hak]
    clear hck hck1 hbk h
    unfold TOTAL_ROWS INITIAL_LOAD_COUNT CHUNK_SIZE
    omega
  have hlenk1 : ((fetchMoreData full)^[k + 1] (initState full)).data.length
      = ((fetchMoreData full)^[k + 1] (initState full)).loadedCount := by
    rw [hck1, List.length_take, h, hak1]
    clear hck hck1 hbk h hlenk
    unfold TOTAL_ROWS INITIAL_LOAD_COUNT CHUNK_SIZE
    omega
  constructor
  · rw [hak1, hak]
    clear hck hck1 hbk h hlenk hlenk1 hak hak1
    unfold TOTAL_ROWS INITIAL_LOAD_COUNT CHUNK_SIZE
    omega
  · rw [hlenk, hlenk1, hak1, hak]
    clear hck hck1 hbk h hlenk hlenk1 hak hak1
    unfold TOTAL_ROWS INITIAL_LOAD_COUNT CHUNK_SIZE
    omega

/-- The concrete progression: one request reaches `1000`, nineteen reach
`10000` and exhaust the source, and a twentieth request changes nothing. -/
theorem fetch_concrete_progression (full : List Record)
    (h : full.length = TOTAL_ROWS) :
    ((fetchMoreData full)^[1] (initState full)).loadedCount = 1000 ∧
    ((fetchMoreData full)^[1] (initState full)).hasMore = true ∧
    ((fetchMoreData full)^[19] (initState full)).loadedCount = 10000 ∧
    ((fetchMoreData full)^[19] (initState full)).hasMore = false ∧
    (fetchMoreData full)^[20] (initState full)
        = (fetchMoreData full)^[19] (initState full) := by
  obtain ⟨ha1, hb1, -, -⟩ := fetch_iterate full h 1
  obtain ⟨ha19, hb19, -, -⟩ := fetch_iterate full h 19
  refine ⟨?_, ?_, ?_, ?_, ?_⟩
  · rw [ha1]
    clear ha1 hb1 ha19 hb19 h
    unfold TOTAL_ROWS INITIAL_LOAD_COUNT CHUNK_SIZE
    omega
  · rw [hb1, ha1]
    apply decide_eq_true
    clear ha1 hb1 ha19 hb19 h
    unfold TOTAL_ROWS INITIAL_LOAD_COUNT CHUNK_SIZE
    omega
  · rw [ha19]
    clear ha1 hb1 ha19 hb19 h
    unfold TOTAL_ROWS INITIAL_LOAD_COUNT CHUNK_SIZE
    omega
  · rw [hb19, ha19]
    apply decide_eq_false
    clear ha1 hb1 ha19 hb19 h
    unfold TOTAL_ROWS INITIAL_LOAD_COUNT CHUNK_SIZE
    omega
  · have hstep : (fetchMoreData full)^[20] (initState full)
        = fetchMoreData full ((fetchMoreData full)^[19] (initState full)) :=
      Function.iterate_succ_apply' (fetchMoreData full) 19 (initState full)
    rw [hstep]
    apply fetchMoreData_noop
    right
    rw [hb19, ha19]
    apply decide_eq_false
    clear ha1 hb1 ha19 hb19 h hstep
    unfold TOTAL_ROWS INITIAL_LOAD_COUNT CHUNK_SIZE
    omega

/-- C7: with `loadedCount` initially `500`, `TOTAL_ROWS = 10000` and
`CHUNK_SIZE = 500`, after one completed load request `loadedCount = 1000`
and `hasMore` is true; after 19 completed requests `loadedCount = 10000` and
`hasMore` is false; a 20th request leaves the state (hence the loaded
prefix) unchanged; and in general the `k+1`-st request appends exactly
`min(CHUNK_SIZE, remaining)` records. -/
theorem claim7_loading_progression (full : List Record)
    (h : full.length = TOTAL_ROWS) (k : ℕ) :
    ((fetchMoreData full)^[1] (initState full)).loadedCount = 1000 ∧
    ((fetchMoreData full)^[1] (initState full)).hasMore = true ∧
    ((fetchMoreData full)^[19] (initState full)).loadedCount = 10000 ∧
    ((fetchMoreData full)^[19] (initState full)).hasMore = false ∧
    (fetchMoreData full)^[20] (initState full)
        = (fetchMoreData full)^[19] (initState full) ∧
    ((fetchMoreData full)^[k + 1] (initState full)).loadedCount
        = ((fetchMoreData full)^[k] (initState full)).loadedCount
          + min CHUNK_SIZE
              (TOTAL_ROWS - ((fetchMoreData full)^[k] (initState full)).loadedCount) ∧
    ((fetchMoreData full)^[k + 1] (initState full)).data.length
        = ((fetchMoreData full)^[k] (initState full)).data.length
          + min CHUNK_SIZE
              (TOTAL_ROWS - ((fetchMoreData full)^[k] (initState full)).loadedCount) := by
  obtain ⟨p1, p2, p3, p4, p5⟩ := fetch_concrete_progression full h
  obtain ⟨q1, q2⟩ := fetch_chunk_equation full h k
  exact ⟨p1, p2, p3, p4, p5, q1, q2⟩

/-- C7 (witness): the progression on a concrete full dataset of length
`TOTAL_ROWS`, with the general chunk equation instantiated at `k = 0`. -/
theorem claim7_witness :
    fullTestData.length = TOTAL_ROWS ∧
    (((fetchMoreData fullTestData)^[1] (initState fullTestData)).loadedCount = 1000 ∧
     ((fetchMoreData fullTestData)^[1] (initState fullTestData)).hasMore = true ∧
     ((fetchMoreData fullTestData)^[19] (initState fullTestData)).loadedCount = 10000 ∧
     ((fetchMoreData fullTestData)^[19] (initState fullTestData)).hasMore = false ∧
     (fetchMoreData fullTestData)^[20] (initState fullTestData)
        = (fetchMoreData fullTestData)^[19] (initState fullTestData) ∧
     ((fetchMoreData fullTestData)^[0 + 1] (initState fullTestData)).loadedCount
        = ((fetchMoreData fullTestData)^[0] (initState fullTestData)).loadedCount
          + min CHUNK_SIZE
              (TOTAL_ROWS
                - ((fetchMoreData fullTestData)^[0] (initState fullTestData)).loadedCount) ∧
     ((fetchMoreData fullTestData)^[0 + 1] (initState fullTestData)).data.length
        = ((fetchMoreData fullTestData)^[0] (initState fullTestData)).data.length
          + min CHUNK_SIZE
              (TOTAL_ROWS
                - ((fetchMoreData fullTestData)^[0] (initState fullTestData)).loadedCount)) :=
  ⟨by simp [fullTestData],
    claim7_loading_progression fullTestData (by simp [fullTestData]) 0⟩

/-- C8: a load request in a loading or exhausted state is the identity on
the whole state (loaded prefix, `loadedCount`, `hasMore`, `isLoading`); a
duplicate request issued after a load began (state `startLoad s`) is also
the identity, so the duplicate contributes nothing and the single completed
load appends exactly one chunk of `min(CHUNK_SIZE, remaining)` records. -/
theorem claim8_load_noop_guard (full : List Record) (t s : FetchState)
    (ht : t.isLoading = true ∨ t.hasMore = false)
    (hl : s.isLoading = false) (hm : s.hasMore = true) :
    fetchMoreData full t = t ∧
    fetchMoreData full (startLoad s) = startLoad s ∧
    completeLoad full (fetchMoreData full (startLoad s)) = fetchMoreData full s ∧
    (fetchMoreData full s).data.length
      = s.data.length + min CHUNK_SIZE (full.length - s.loadedCount) := by
  have hstart : startLoad s = { s with isLoading := true } := by
    unfold startLoad
    rw [hl, hm]
    rfl
  have hdup : fetchMoreData full (startLoad s) = startLoad s := by
    apply fetchMoreData_noop
    left
    rw [hstart]
  have hrun : fetchMoreData full s = completeLoad full { s with isLoading := true } := by
    unfold fetchMoreData
    rw [hl, hm]
    rfl
  refine ⟨fetchMoreData_noop full t ht, hdup, ?_, ?_⟩
  · rw [hdup, hstart, hrun]
  · rw [hrun]
    unfold completeLoad
    split
    next hp =>
      show (s.data ++ (full.drop s.loadedCount).take CHUNK_SIZE).length = _
      rw [List.length_append, List.length_take, List.length_drop]
    next hp =>
      show s.data.length = _
      rw [Nat.not_lt, Nat.le_zero, List.length_take, List.length_drop] at hp
      have hp' : min CHUNK_SIZE (full.length - s.loadedCount) = 0 := hp
      omega

/-- C8 (witness): the guards and the single-chunk equation on a concrete
dataset, a loading state `t` and a ready state `s`. -/
theorem claim8_witness :
    ((⟨[], true, true, 0⟩ : FetchState).isLoading = true ∨
      (⟨[], true, true, 0⟩ : FetchState).hasMore = false) ∧
    (⟨[], false, true, 0⟩ : FetchState).isLoading = false ∧
    (⟨[], false, true, 0⟩ : FetchState).hasMore = true ∧
    (fetchMoreData fullTestData ⟨[], true, true, 0⟩ = ⟨[], true, true, 0⟩ ∧
     fetchMoreData fullTestData (startLoad ⟨[], false, true, 0⟩)
        = startLoad ⟨[], false, true, 0⟩ ∧
     completeLoad fullTestData (fetchMoreData fullTestData (startLoad ⟨[], false, true, 0⟩))
        = fetchMoreData fullTestData ⟨[], false, true, 0⟩ ∧
     (fetchMoreData fullTestData ⟨[], false, true, 0⟩).data.length
        = (⟨[], false, true, 0⟩ : FetchState).data.length
          + min CHUNK_SIZE
              (fullTestData.length - (⟨[], false, true, 0⟩ : FetchState).loadedCount)) :=
  ⟨Or.inl rfl, rfl, rfl,
    claim8_load_noop_guard fullTestData ⟨[], true, true, 0⟩ ⟨[], false, true, 0⟩
      (Or.inl rfl) rfl rfl⟩

/-- C10 (implicit): the data source maintains `hasMore = (loadedCount <
TOTAL_ROWS)` after initialization and after every number `k` of completed
load requests — so `hasMore` turns false in the very load that reaches
`TOTAL_ROWS` — and from any state with `hasMore = false` a request changes
nothing, so `hasMore` never reverts from false to true. -/
theorem claim10_hasMore_invariant (full : List Record)
    (h : full.length = TOTAL_ROWS) (k : ℕ) (s : FetchState)
    (hs : s.hasMore = false) :
    (initState full).hasMore = decide ((initState full).loadedCount < TOTAL_ROWS) ∧
    ((fetchMoreData full)^[k] (initState full)).hasMore
      = decide (((fetchMoreData full)^[k] (initState full)).loadedCount < TOTAL_ROWS) ∧
    fetchMoreData full s = s :=
  ⟨rfl, (fetch_iterate full h k).2.1, fetchMoreData_noop full s (Or.inr hs)⟩

/-- C10 (witness): the invariant on a concrete dataset after one request,
and the no-op from a concrete exhausted state. -/
theorem claim10_witness :
    fullTestData.length = TOTAL_ROWS ∧
    (⟨[], false, false, 10000⟩ : FetchState).hasMore = false ∧
    ((initState fullTestData).hasMore
        = decide ((initState fullTestData).loadedCount < TOTAL_ROWS) ∧
     ((fetchMoreData fullTestData)^[1] (initState fullTestData)).hasMore
        = decide
            (((fetchMoreData fullTestData)^[1] (initState fullTestData)).loadedCount
              < TOTAL_ROWS) ∧
     fetchMoreData fullTestData ⟨[], false, false, 10000⟩
        = ⟨[], false, false, 10000⟩) :=
  ⟨by simp [fullTestData], rfl,
    claim10_hasMore_invariant fullTestData (by simp [fullTestData]) 1
      ⟨[], false, false, 10000⟩ rfl⟩
